import Mathlib

/-!
Shallow embedding of the loan-dashboard analytics engine
(`db.py`, `utils.py`, `pages/0_Executive_Dashboard.py`,
`pages/10_Interest_Yield_Analysis.py`, `pages/11_Smart_Recommendations.py`).
Monetary amounts, rates and day counts are modelled as exact rationals;
pandas cell values that may be strings or native booleans are modelled by
an explicit value type, and missing numerics by `Option`.
-/

namespace LoanDash

/-- A loosely typed pandas cell for the `released` column: either a Python
string or a native boolean.  Mirrors the raw data that reaches
`db.calculate_realized_interest` before any normalization. -/
inductive PyVal where
  | str (s : String)
  | bool (b : Bool)
deriving DecidableEq, Repr

/-- Python equality test `x == 'TRUE'` on a cell: a string compares by
content, a native boolean is never equal to the string `'TRUE'`. -/
def releasedEqTRUE : PyVal → Bool
  | .str s => s == "TRUE"
  | .bool _ => false

/-- Python `str.upper()` on the ASCII strings that occur in the `released`
column, modelled per character. -/
def strUpper (s : String) : String :=
  ⟨s.data.map Char.toUpper⟩

/-- The `released`-column lambda of `utils.normalize_customer_data`:
`str(x).upper() if isinstance(x, str) else ('TRUE' if x is True else 'FALSE')`. -/
def normalize_customer_released : PyVal → PyVal
  | .str s => .str (strUpper s)
  | .bool b => .str (if b then "TRUE" else "FALSE")

/-- The columns of one loan row consumed by `db.calculate_realized_interest`:
`interest_deposited_till_date` (`none` models pandas `NaN`),
`interest_amount`, and the raw `released` cell. -/
structure LoanRow where
  interest_deposited_till_date : Option ℚ
  interest_amount : ℚ
  released : PyVal
deriving DecidableEq, Repr

/-- Pandas test `df[col].isna() | (df[col] <= 0)` on one cell: `NaN <= 0`
is false in pandas, the missing case is caught by `isna`. -/
def depMissingOrNonpos : Option ℚ → Bool
  | none => true
  | some d => decide (d ≤ 0)

/-- The boolean mask `(df['released'] == 'TRUE') &
(df['interest_deposited_till_date'].isna() | (df['interest_deposited_till_date'] <= 0))`
from `db.calculate_realized_interest`. -/
def legacyMask (r : LoanRow) : Bool :=
  releasedEqTRUE r.released && depMissingOrNonpos r.interest_deposited_till_date

/-- `db.calculate_realized_interest`, per row: start from
`interest_deposited_till_date` and overwrite the masked rows with
`interest_amount`.  A `none` result models a `NaN` that was left in place. -/
def calculate_realized_interest (r : LoanRow) : Option ℚ :=
  if legacyMask r then some r.interest_amount else r.interest_deposited_till_date

/-- The columns of one loan row consumed by `db.calculate_correct_ltv`. -/
structure LtvRow where
  loan_amount : ℚ
  net_wt : ℚ
  gold_rate : ℚ
  purity : ℚ
deriving DecidableEq, Repr

/-- `collateral_value = df['net_wt'] * df['gold_rate'] * (df['purity'] / 100)`
from `db.calculate_correct_ltv`. -/
def collateral_value (r : LtvRow) : ℚ :=
  r.net_wt * r.gold_rate * (r.purity / 100)

/-- `db.calculate_correct_ltv`, per row: the series is initialized to `0.0`
and only rows with `collateral_value > 0` get `(loan_amount / collateral_value) * 100`. -/
def calculate_correct_ltv (r : LtvRow) : ℚ :=
  if 0 < collateral_value r then r.loan_amount / collateral_value r * 100 else 0

/-- One cohort row as consumed by `utils.calculate_portfolio_yield`: the
`interest_col`, `capital_col` and `days_col` columns. -/
structure YieldRow where
  interest : ℚ
  capital : ℚ
  days : ℚ
deriving DecidableEq, Repr

/-- The filter `df[(df[capital_col] > 0) & (df[days_col] > 0)]` shared by
`utils.calculate_portfolio_yield` and `utils.calculate_weighted_average_days`. -/
def validRows (df : List YieldRow) : List YieldRow :=
  df.filter (fun r => decide (0 < r.capital) && decide (0 < r.days))

/-- `utils.calculate_weighted_average_days`: after the validity filter, empty
data or a zero total amount give `0.0`, otherwise
`Σ(amount × days) / Σ(amount)`.  (The Python stores the filtered frame and
the two sums in locals; they are written inline here.) -/
def calculate_weighted_average_days (df : List YieldRow) : ℚ :=
  if validRows df = [] then 0
  else if ((validRows df).map (fun r => r.capital)).sum = 0 then 0
  else ((validRows df).map (fun r => r.capital * r.days)).sum
        / ((validRows df).map (fun r => r.capital)).sum

/-- The result dict of `utils.calculate_portfolio_yield`. -/
structure YieldMetrics where
  portfolio_yield : ℚ
  total_interest : ℚ
  total_capital : ℚ
  weighted_avg_days : ℚ
  simple_return : ℚ
deriving DecidableEq, Repr

/-- `utils.calculate_portfolio_yield`: filter invalid rows, return all-zero
metrics on an empty cohort, otherwise sum interest and capital, delegate to
`calculate_weighted_average_days` on the filtered frame, and guard the two
divisions.  (Python locals are written inline.) -/
def calculate_portfolio_yield (df : List YieldRow) : YieldMetrics :=
  if validRows df = [] then ⟨0, 0, 0, 0, 0⟩
  else if 0 < ((validRows df).map (fun r => r.capital)).sum ∧
          0 < calculate_weighted_average_days (validRows df) then
    { portfolio_yield :=
        ((validRows df).map (fun r => r.interest)).sum
          / ((validRows df).map (fun r => r.capital)).sum
          * (365 / calculate_weighted_average_days (validRows df)) * 100
      total_interest := ((validRows df).map (fun r => r.interest)).sum
      total_capital := ((validRows df).map (fun r => r.capital)).sum
      weighted_avg_days := calculate_weighted_average_days (validRows df)
      simple_return :=
        ((validRows df).map (fun r => r.interest)).sum
          / ((validRows df).map (fun r => r.capital)).sum * 100 }
  else
    { portfolio_yield := 0
      total_interest := ((validRows df).map (fun r => r.interest)).sum
      total_capital := ((validRows df).map (fun r => r.capital)).sum
      weighted_avg_days := calculate_weighted_average_days (validRows df)
      simple_return := 0 }

/-- Comparison definition taken from the spec's words (claim C1), not from
the source: the per-loan annualized yield
`(realized_interest/principal) × (365/holding_days) × 100`. -/
def perLoanAnnualizedYield (r : YieldRow) : ℚ :=
  r.interest / r.capital * (365 / r.days) * 100

/-- Comparison definition taken from the spec's words (claim C1): the
arithmetic mean of the per-loan annualized yields over a cohort. -/
def meanPerLoanYield (df : List YieldRow) : ℚ :=
  (df.map perLoanAnnualizedYield).sum / df.length

/-- The columns of one loan row consumed by the health-score block of
`pages/0_Executive_Dashboard.py` (and the same block of
`pages/11_Smart_Recommendations.py`); there the data has already been
normalized, so `released` is a plain string and the deposited amount a
plain number. -/
structure HealthRow where
  loan_amount : ℚ
  interest_amount : ℚ
  interest_deposited_till_date : ℚ
  released : String
deriving DecidableEq, Repr

/-- `total_deposited = filtered_df['interest_deposited_till_date'].sum()`. -/
def total_deposited (df : List HealthRow) : ℚ :=
  (df.map (fun r => r.interest_deposited_till_date)).sum

/-- The rows selected by `legacy_released_mask = (released == 'TRUE') &
(interest_deposited_till_date <= 0)`. -/
def legacy_released_rows (df : List HealthRow) : List HealthRow :=
  df.filter (fun r => r.released == "TRUE" && decide (r.interest_deposited_till_date ≤ 0))

/-- `legacy_recovered_interest = filtered_df.loc[legacy_released_mask, 'interest_amount'].sum()`. -/
def legacy_recovered_interest (df : List HealthRow) : ℚ :=
  ((legacy_released_rows df).map (fun r => r.interest_amount)).sum

/-- `total_collected_adjusted = total_deposited + legacy_recovered_interest`. -/
def total_collected_adjusted (df : List HealthRow) : ℚ :=
  total_deposited df + legacy_recovered_interest df

/-- `filtered_df['loan_amount'].sum()`, the basis of the expected-interest
denominator. -/
def total_loan_amount (df : List HealthRow) : ℚ :=
  (df.map (fun r => r.loan_amount)).sum

/-- `collection_efficiency = (total_collected_adjusted /
(filtered_df['loan_amount'].sum() * 0.12) * 100) if ... > 0 else 0`
from `pages/0_Executive_Dashboard.py`. -/
def collection_efficiency (df : List HealthRow) : ℚ :=
  if 0 < total_loan_amount df then
    total_collected_adjusted df / (total_loan_amount df * (0.12 : ℚ)) * 100
  else 0

/-- `collection_health = min(100, collection_efficiency)`. -/
def collection_health (df : List HealthRow) : ℚ :=
  min 100 (collection_efficiency df)

/-- The per-row realized interest of `db.calculate_realized_interest`
specialized to a normalized health row (deposited amount present). -/
def realizedOfHealthRow (r : HealthRow) : ℚ :=
  (calculate_realized_interest
      ⟨some r.interest_deposited_till_date, r.interest_amount, .str r.released⟩).getD 0

/-- `months_since_disbursement = days_since_disbursement / 30.44` from the
aged-items block of `pages/0_Executive_Dashboard.py`. -/
def months_since_disbursement (days : ℚ) : ℚ :=
  days / (30.44 : ℚ)

/-- `equity_remaining = 100 - (ltv_correct + 1.25 * months_since_disbursement)`
from the aged-items block of `pages/0_Executive_Dashboard.py`. -/
def equity_remaining (ltv months : ℚ) : ℚ :=
  100 - (ltv + (1.25 : ℚ) * months)

/-- Membership test of the `payment_overdue` selection
`active_loans_df[active_loans_df['equity_remaining'] < 1.25]`. -/
def payment_overdue (equity : ℚ) : Bool :=
  decide (equity < (1.25 : ℚ))

/-- The columns of one raw loan row consumed by `prepare_yield_data` of
`pages/10_Interest_Yield_Analysis.py`; dates are day numbers, the `released`
cell is the raw (non-normalized) value as loaded from the store. -/
structure RawLoan where
  loan_amount : ℚ
  interest_amount : ℚ
  interest_deposited_till_date : Option ℚ
  released : PyVal
  date_of_disbursement : ℤ
  date_of_release : Option ℤ
deriving DecidableEq, Repr

/-- `days_to_release = (date_of_release - date_of_disbursement).dt.days`,
computed after the not-null filter on `date_of_release`. -/
def daysToRelease (r : RawLoan) : ℤ :=
  r.date_of_release.getD 0 - r.date_of_disbursement

/-- One output row of `prepare_yield_data`: the raw columns together with
the added `days_to_release` and `realized_interest` columns.  (The further
display columns, `interest_yield` and the release-period strings, are not
needed by any claim and are omitted.) -/
structure YieldDataRow where
  raw : RawLoan
  days_to_release : ℤ
  realized_interest : Option ℚ
deriving DecidableEq, Repr

/-- `prepare_yield_data` of `pages/10_Interest_Yield_Analysis.py`: keep rows
with a release date, return `None` when empty, keep rows with positive days
and positive loan amount, return `None` when empty, then compute the realized
interest by `db.calculate_realized_interest` on the rows as they are —
`utils.normalize_customer_data` is not invoked anywhere in this pipeline, so
the `released` cell keeps its raw encoding. -/
def prepare_yield_data (df : List RawLoan) : Option (List YieldDataRow) :=
  if df.filter (fun r => r.date_of_release.isSome) = [] then none
  else if (df.filter (fun r => r.date_of_release.isSome)).filter
      (fun r => decide (0 < daysToRelease r) && decide (0 < r.loan_amount)) = [] then none
  else some (((df.filter (fun r => r.date_of_release.isSome)).filter
      (fun r => decide (0 < daysToRelease r) && decide (0 < r.loan_amount))).map
    (fun r => ⟨r, daysToRelease r,
      calculate_realized_interest
        ⟨r.interest_deposited_till_date, r.interest_amount, r.released⟩⟩))

/-- `calendar.month_abbr[1]` through `calendar.month_abbr[12]`, the fixed
row order that `utils.reindex_by_months` imposes. -/
def monthAbbrList : List String :=
  ["Jan", "Feb", "Mar", "Apr", "May", "Jun", "Jul", "Aug", "Sep", "Oct", "Nov", "Dec"]

/-- One input record of `utils.create_monthly_pivot` after
`add_date_columns`: the extracted month number (1–12), the extracted year,
and the value being aggregated. -/
structure PivotRecord where
  month : ℕ
  year : ℤ
  value : ℚ
deriving DecidableEq, Repr

/-- Ordered insertion without duplicates, used to model the ascending sorted
year columns that `pivot_table` produces. -/
def insertYear (y : ℤ) : List ℤ → List ℤ
  | [] => [y]
  | z :: zs => if y < z then y :: z :: zs else if y = z then z :: zs else z :: insertYear y zs

/-- The year-column labels of the pivot: the distinct years of the records
in ascending order, as `pivot_table(columns='year')` sorts them. -/
def sortedYears (records : List PivotRecord) : List ℤ :=
  records.foldl (fun acc r => insertYear r.year acc) []

/-- One aggregated pivot cell:
`pivot_table(index='month_name', columns='year', values=value_col, aggfunc='sum', fill_value=0)`
with the zero fill for (month, year) groups that have no records. -/
def cellValue (records : List PivotRecord) (m : ℕ) (y : ℤ) : ℚ :=
  ((records.filter (fun r => r.month == m && r.year == y)).map (fun r => r.value)).sum

/-- The 12 month rows of the pivot after `reindex_by_months`: every calendar
month in `Jan..Dec` order, each holding one cell per year column (absent
months get zero-filled rows by `reindex(..., fill_value=0)`). -/
def monthRows (records : List PivotRecord) : List (String × List ℚ) :=
  (List.range 12).map (fun i =>
    (monthAbbrList.getD i "",
      (sortedYears records).map (fun y => cellValue records (i + 1) y)))

/-- `pivot.sum(axis=0)` restricted to the first `n` columns: the per-column
sums over the given rows of cells. -/
def colSums (rows : List (List ℚ)) (n : ℕ) : List ℚ :=
  (List.range n).map (fun j => (rows.map (fun cs => cs.getD j 0)).sum)

/-- `utils.add_pivot_totals`: append the `Total` row (`pivot.sum(axis=0)`)
and then, when `pivot.shape[1] > 1`, the `Total` column (`pivot.sum(axis=1)`,
which on the already-appended `Total` row yields the grand total). -/
def add_pivot_totals (pivot : List (String × List ℚ)) : List (String × List ℚ) :=
  let n := (pivot.head?.map (fun p => p.2.length)).getD 0
  let withRow := pivot ++ [("Total", colSums (pivot.map (fun p => p.2)) n)]
  if 1 < n then withRow.map (fun p => (p.1, p.2 ++ [p.2.sum])) else withRow

/-- `utils.create_monthly_pivot` with `agg_func='sum'` and
`add_totals=True`: build the month × year table, reindex to the fixed
month order, and add totals. -/
def create_monthly_pivot (records : List PivotRecord) : List (String × List ℚ) :=
  add_pivot_totals (monthRows records)

/-- Observer: the cell list of row `i` of a pivot. -/
def pivotRowCells (P : List (String × List ℚ)) (i : ℕ) : List ℚ :=
  (P.getD i ("", [])).2

/-- Observer: the cell of a pivot at row `i`, column `j` (0 outside). -/
def pivotCell (P : List (String × List ℚ)) (i j : ℕ) : ℚ :=
  (pivotRowCells P i).getD j 0

/-- The row transformation performed by the `Total`-column step of
`add_pivot_totals` on a pivot with `n` data columns. -/
def extendRow (n : ℕ) (cs : List ℚ) : List ℚ :=
  if 1 < n then cs ++ [cs.sum] else cs

/-- A pandas float cell: a finite value (exact rational here), `NaN`, or a
signed infinity. -/
inductive FVal where
  | num (q : ℚ)
  | nan
  | pinf
  | ninf
deriving DecidableEq, Repr

/-- Elementwise float division as numpy performs it: a nonzero value divided
by zero gives a signed infinity, `0/0` gives `NaN`, and `NaN` propagates. -/
def fdiv : FVal → FVal → FVal
  | .nan, _ => .nan
  | _, .nan => .nan
  | .num a, .num b =>
      if b = 0 then (if a = 0 then .nan else if 0 < a then .pinf else .ninf)
      else .num (a / b)
  | .num _, .pinf => .num 0
  | .num _, .ninf => .num 0
  | .pinf, .num b => if 0 ≤ b then .pinf else .ninf
  | .ninf, .num b => if 0 ≤ b then .ninf else .pinf
  | .pinf, .pinf => .nan
  | .pinf, .ninf => .nan
  | .ninf, .pinf => .nan
  | .ninf, .ninf => .nan

/-- Elementwise float subtraction with `NaN` propagation and the usual
infinity rules. -/
def fsub : FVal → FVal → FVal
  | .nan, _ => .nan
  | _, .nan => .nan
  | .num a, .num b => .num (a - b)
  | .num _, .pinf => .ninf
  | .num _, .ninf => .pinf
  | .pinf, .num _ => .pinf
  | .pinf, .ninf => .pinf
  | .pinf, .pinf => .nan
  | .ninf, .num _ => .ninf
  | .ninf, .pinf => .ninf
  | .ninf, .ninf => .nan

/-- Elementwise float multiplication with `NaN` propagation and the usual
infinity rules. -/
def fmul : FVal → FVal → FVal
  | .nan, _ => .nan
  | _, .nan => .nan
  | .num a, .num b => .num (a * b)
  | .pinf, .num b => if b = 0 then .nan else if 0 < b then .pinf else .ninf
  | .num a, .pinf => if a = 0 then .nan else if 0 < a then .pinf else .ninf
  | .ninf, .num b => if b = 0 then .nan else if 0 < b then .ninf else .pinf
  | .num a, .ninf => if a = 0 then .nan else if 0 < a then .ninf else .pinf
  | .pinf, .pinf => .pinf
  | .pinf, .ninf => .ninf
  | .ninf, .pinf => .ninf
  | .ninf, .ninf => .pinf

/-- One `pct_change` step between adjacent columns: `current / previous − 1`. -/
def pctChangeCell (prev cur : FVal) : FVal :=
  fsub (fdiv cur prev) (.num 1)

/-- Tail recursion of `pct_change` along a row, carrying the previous cell. -/
def pctChangeGo (prev : FVal) : List FVal → List FVal
  | [] => []
  | c :: rest => pctChangeCell prev c :: pctChangeGo c rest

/-- `DataFrame.pct_change(axis=1)` along one row with no filling of missing
values (a `NaN` previous cell propagates `NaN`); the first column has no
predecessor and is `NaN`. -/
def pctChangeRow : List FVal → List FVal
  | [] => []
  | c :: rest => .nan :: pctChangeGo c rest

/-- One cell of `.replace([np.inf, -np.inf], np.nan)`. -/
def replaceInfNan : FVal → FVal
  | .pinf => .nan
  | .ninf => .nan
  | v => v

/-- `utils.calculate_yoy_change`: `pivot.pct_change(axis=1) * 100`, then the
infinities replaced by `NaN` in place. -/
def calculate_yoy_change (pivot : List (List FVal)) : List (List FVal) :=
  (pivot.map (fun row => (pctChangeRow row).map (fun v => fmul v (.num 100)))).map
    (fun row => row.map replaceInfNan)

/-- Observer: the cell of a float table at row `i`, column `j`, when present. -/
def yoyCellAt (P : List (List FVal)) (i j : ℕ) : Option FVal :=
  P[i]?.bind (fun row => row[j]?)

end LoanDash

namespace LoanDash

/-- Claim C3: for a loan row with a present, nonnegative deposited-interest
value and a canonically encoded `released` flag, realized interest is the
deposited value when it is positive, the contracted `interest_amount` when the
loan is released and the deposited value is not positive, and `0` otherwise. -/
theorem realized_interest_cases (dep amt : ℚ) (rel : Bool) (hdep : 0 ≤ dep) :
    calculate_realized_interest
      ⟨some dep, amt, .str (if rel then "TRUE" else "FALSE")⟩
      = some (if 0 < dep then dep else if rel then amt else 0) := by
  rcases lt_or_eq_of_le hdep with hpos | hzero
  · have hmask : depMissingOrNonpos (some dep) = false := by
      simp [depMissingOrNonpos, not_le.mpr hpos]
    cases rel <;>
      simp [calculate_realized_interest, legacyMask, releasedEqTRUE, hmask, hpos]
  · cases rel <;>
      simp [calculate_realized_interest, legacyMask, releasedEqTRUE,
        depMissingOrNonpos, ← hzero]

/-- Witness for claim C3 at the spec scenario: a released loan with
`deposited = 0` and `contracted_interest_amount = 5000` realizes `5000`
(the legacy fallback fires). -/
theorem realized_interest_cases_witness :
    (0 : ℚ) ≤ 0 ∧
      calculate_realized_interest ⟨some 0, 5000, .str "TRUE"⟩ = some 5000 := by
  refine ⟨le_refl 0, ?_⟩
  have h := realized_interest_cases 0 5000 true (le_refl 0)
  simpa using h

/-- Claim C4: collateral value is `net_wt × gold_rate × (purity/100)`; the
LTV is `0` whenever the collateral value is not positive (in particular when
the net weight or the rate per gram is zero, guarded rather than an error)
and `(loan_amount / collateral_value) × 100` otherwise; for principal
100000, net weight 50 g, rate 6000 per gram and purity 91.6 the collateral
value is 274800 and the LTV lies in [36.39, 36.40). -/
theorem correct_ltv_spec :
    (∀ r : LtvRow, collateral_value r = r.net_wt * r.gold_rate * (r.purity / 100)) ∧
    (∀ r : LtvRow, collateral_value r ≤ 0 → calculate_correct_ltv r = 0) ∧
    (∀ r : LtvRow, 0 < collateral_value r →
      calculate_correct_ltv r = r.loan_amount / collateral_value r * 100) ∧
    (∀ r : LtvRow, r.net_wt = 0 → calculate_correct_ltv r = 0) ∧
    (∀ r : LtvRow, r.gold_rate = 0 → calculate_correct_ltv r = 0) ∧
    collateral_value ⟨100000, 50, 6000, 91.6⟩ = 274800 ∧
    (36.39 : ℚ) ≤ calculate_correct_ltv ⟨100000, 50, 6000, 91.6⟩ ∧
    calculate_correct_ltv ⟨100000, 50, 6000, 91.6⟩ < 36.40 := by
  refine ⟨fun _ => rfl, ?_, ?_, ?_, ?_, by norm_num [collateral_value], ?_, ?_⟩
  · intro r h
    simp [calculate_correct_ltv, not_lt.mpr h]
  · intro r h
    simp [calculate_correct_ltv, h]
  · intro r h
    simp [calculate_correct_ltv, collateral_value, h]
  · intro r h
    simp [calculate_correct_ltv, collateral_value, h]
  · norm_num [calculate_correct_ltv, collateral_value]
  · norm_num [calculate_correct_ltv, collateral_value]

/-- Witness for claim C4: the zero-collateral guard applied at a concrete row
with zero net weight. -/
theorem correct_ltv_spec_witness :
    collateral_value ⟨1000, 0, 5000, 91.6⟩ ≤ 0 ∧
      calculate_correct_ltv ⟨1000, 0, 5000, 91.6⟩ = 0 := by
  refine ⟨by norm_num [collateral_value], ?_⟩
  exact correct_ltv_spec.2.1 ⟨1000, 0, 5000, 91.6⟩ (by norm_num [collateral_value])

/-- Rows surviving the validity filter have positive capital and days. -/
theorem mem_validRows {df : List YieldRow} {r : YieldRow} (h : r ∈ validRows df) :
    0 < r.capital ∧ 0 < r.days := by
  have h2 := (List.mem_filter.mp h).2
  simpa using h2

/-- The validity filter is idempotent. -/
theorem validRows_idem (df : List YieldRow) : validRows (validRows df) = validRows df :=
  List.filter_eq_self.mpr (fun _ hr => (List.mem_filter.mp hr).2)

/-- A nonempty filtered cohort has positive total capital. -/
theorem totalCapital_pos {df : List YieldRow} (h : validRows df ≠ []) :
    0 < ((validRows df).map (fun r => r.capital)).sum := by
  refine List.sum_pos _ (fun x hx => ?_) ?_
  · obtain ⟨r, hr, rfl⟩ := List.mem_map.mp hx
    exact (mem_validRows hr).1
  · intro hmap
    exact h (by simpa using hmap)

/-- A nonempty filtered cohort has a positive capital-days weighted sum. -/
theorem weightedSum_pos {df : List YieldRow} (h : validRows df ≠ []) :
    0 < ((validRows df).map (fun r => r.capital * r.days)).sum := by
  refine List.sum_pos _ (fun x hx => ?_) ?_
  · obtain ⟨r, hr, rfl⟩ := List.mem_map.mp hx
    exact mul_pos (mem_validRows hr).1 (mem_validRows hr).2
  · intro hmap
    exact h (by simpa using hmap)

/-- On a nonempty already-filtered cohort the weighted average reduces to
`Σ(capital × days) / Σ(capital)`. -/
theorem calculate_weighted_average_days_eq (df : List YieldRow) (h : validRows df ≠ []) :
    calculate_weighted_average_days (validRows df)
      = ((validRows df).map (fun r => r.capital * r.days)).sum
          / ((validRows df).map (fun r => r.capital)).sum := by
  rw [calculate_weighted_average_days, validRows_idem]
  rw [if_neg h, if_neg (totalCapital_pos h).ne']

/-- Field-level description of `calculate_portfolio_yield` on a cohort that
is nonempty after the validity filter (shared helper for several claims). -/
theorem portfolio_yield_fields (df : List YieldRow) (h : validRows df ≠ []) :
    (calculate_portfolio_yield df).total_interest
        = ((validRows df).map (fun r => r.interest)).sum ∧
    (calculate_portfolio_yield df).total_capital
        = ((validRows df).map (fun r => r.capital)).sum ∧
    (calculate_portfolio_yield df).weighted_avg_days
        = ((validRows df).map (fun r => r.capital * r.days)).sum
            / ((validRows df).map (fun r => r.capital)).sum ∧
    (calculate_portfolio_yield df).portfolio_yield
        = ((validRows df).map (fun r => r.interest)).sum
            / ((validRows df).map (fun r => r.capital)).sum
            * (365 / (((validRows df).map (fun r => r.capital * r.days)).sum
                        / ((validRows df).map (fun r => r.capital)).sum)) * 100 ∧
    (calculate_portfolio_yield df).simple_return
        = ((validRows df).map (fun r => r.interest)).sum
            / ((validRows df).map (fun r => r.capital)).sum * 100 := by
  have hcap := totalCapital_pos h
  have hws := weightedSum_pos h
  have hwad := calculate_weighted_average_days_eq df h
  have hwadpos : 0 < calculate_weighted_average_days (validRows df) := by
    rw [hwad]; exact div_pos hws hcap
  rw [calculate_portfolio_yield, if_neg h, if_pos ⟨hcap, hwadpos⟩]
  exact ⟨rfl, rfl, hwad, by rw [hwad], rfl⟩

/-- Claim C2: on a cohort that is nonempty after excluding rows with
nonpositive capital or nonpositive holding days, `calculate_portfolio_yield`
returns the sum of realized interest, the sum of principal, the
capital-weighted average days `Σ(capital × days) / Σ(capital)`, the
annualized cohort yield and the simple return, all over the remaining rows
only. -/
theorem portfolio_yield_formula (df : List YieldRow) (h : validRows df ≠ []) :
    (calculate_portfolio_yield df).total_interest
        = ((validRows df).map (fun r => r.interest)).sum ∧
    (calculate_portfolio_yield df).total_capital
        = ((validRows df).map (fun r => r.capital)).sum ∧
    (calculate_portfolio_yield df).weighted_avg_days
        = ((validRows df).map (fun r => r.capital * r.days)).sum
            / ((validRows df).map (fun r => r.capital)).sum ∧
    (calculate_portfolio_yield df).portfolio_yield
        = ((validRows df).map (fun r => r.interest)).sum
            / ((validRows df).map (fun r => r.capital)).sum
            * (365 / (((validRows df).map (fun r => r.capital * r.days)).sum
                        / ((validRows df).map (fun r => r.capital)).sum)) * 100 ∧
    (calculate_portfolio_yield df).simple_return
        = ((validRows df).map (fun r => r.interest)).sum
            / ((validRows df).map (fun r => r.capital)).sum * 100 :=
  portfolio_yield_fields df h

/-- Witness for claim C2 on a one-row cohort. -/
theorem portfolio_yield_formula_witness :
    validRows [⟨100, 1000, 365⟩] ≠ [] ∧
      (calculate_portfolio_yield [⟨100, 1000, 365⟩]).portfolio_yield = 10 ∧
      (calculate_portfolio_yield [⟨100, 1000, 365⟩]).total_interest = 100 ∧
      (calculate_portfolio_yield [⟨100, 1000, 365⟩]).total_capital = 1000 ∧
      (calculate_portfolio_yield [⟨100, 1000, 365⟩]).weighted_avg_days = 365 ∧
      (calculate_portfolio_yield [⟨100, 1000, 365⟩]).simple_return = 10 := by
  have hne : validRows [(⟨100, 1000, 365⟩ : YieldRow)] ≠ [] := by decide
  obtain ⟨h1, h2, h3, h4, h5⟩ := portfolio_yield_formula [⟨100, 1000, 365⟩] hne
  have hv : validRows [(⟨100, 1000, 365⟩ : YieldRow)] = [⟨100, 1000, 365⟩] := by decide
  rw [hv] at h1 h2 h3 h4 h5
  simp only [List.map_cons, List.map_nil, List.sum_cons, List.sum_nil] at h1 h2 h3 h4 h5
  refine ⟨hne, by rw [h4]; norm_num, by rw [h1]; norm_num, by rw [h2]; norm_num,
    by rw [h3]; norm_num, by rw [h5]; norm_num⟩

/-- Claim C9: a degenerate cohort (empty after the validity filter, or with
zero total capital) yields all-zero metrics rather than an error; the
embedding is a total function, so no exception is possible. -/
theorem portfolio_yield_degenerate (df : List YieldRow)
    (h : validRows df = [] ∨ ((validRows df).map (fun r => r.capital)).sum = 0) :
    calculate_portfolio_yield df = ⟨0, 0, 0, 0, 0⟩ := by
  rcases h with h | h
  · rw [calculate_portfolio_yield, if_pos h]
  · by_cases hnil : validRows df = []
    · rw [calculate_portfolio_yield, if_pos hnil]
    · exact absurd h (totalCapital_pos hnil).ne'

/-- Witness for claim C9: a cohort whose two rows are both excluded (zero
capital, respectively zero holding days) returns the all-zero metrics. -/
theorem portfolio_yield_degenerate_witness :
    calculate_portfolio_yield [⟨5, 0, 10⟩, ⟨7, 100, 0⟩] = ⟨0, 0, 0, 0, 0⟩ :=
  portfolio_yield_degenerate _ (Or.inl (by decide))

/-- Counterexample for claim C1: a cohort with heterogeneous holding days
(1 day versus 2 days) on which the cohort formula and the mean of per-loan
annualized yields coincide, refuting the claim's universal clause. -/
theorem cohort_vs_mean_counterexample :
    (⟨1, 1, 1⟩ : YieldRow).days ≠ (⟨2, 1, 2⟩ : YieldRow).days ∧
      (calculate_portfolio_yield [⟨1, 1, 1⟩, ⟨2, 1, 2⟩]).portfolio_yield
        = meanPerLoanYield [⟨1, 1, 1⟩, ⟨2, 1, 2⟩] := by
  have hne : validRows [(⟨1, 1, 1⟩ : YieldRow), ⟨2, 1, 2⟩] ≠ [] := by decide
  have hv : validRows [(⟨1, 1, 1⟩ : YieldRow), ⟨2, 1, 2⟩] = [⟨1, 1, 1⟩, ⟨2, 1, 2⟩] := by
    decide
  obtain ⟨-, -, -, h4, -⟩ := portfolio_yield_fields _ hne
  rw [hv] at h4
  refine ⟨by norm_num, ?_⟩
  rw [h4]
  simp only [List.map_cons, List.map_nil, List.sum_cons, List.sum_nil,
    meanPerLoanYield, perLoanAnnualizedYield, List.length_cons, List.length_nil]
  norm_num

/-- Claim C1 as amended: for the two-loan cohort A = (interest 500, capital
10000, 10 days) and B = (interest 20000, capital 1000000, 365 days) the
cohort-formula portfolio yield differs from the arithmetic mean of the two
per-loan annualized yields, which equals 92.25% (per-loan yields 182.5% and
2.0%). -/
theorem cohort_vs_mean_example :
    (calculate_portfolio_yield [⟨500, 10000, 10⟩, ⟨20000, 1000000, 365⟩]).portfolio_yield
        ≠ meanPerLoanYield [⟨500, 10000, 10⟩, ⟨20000, 1000000, 365⟩] ∧
      perLoanAnnualizedYield ⟨500, 10000, 10⟩ = 365 / 2 ∧
      perLoanAnnualizedYield ⟨20000, 1000000, 365⟩ = 2 ∧
      meanPerLoanYield [⟨500, 10000, 10⟩, ⟨20000, 1000000, 365⟩] = 369 / 4 := by
  have hne : validRows [(⟨500, 10000, 10⟩ : YieldRow), ⟨20000, 1000000, 365⟩] ≠ [] := by
    decide
  have hv : validRows [(⟨500, 10000, 10⟩ : YieldRow), ⟨20000, 1000000, 365⟩]
      = [⟨500, 10000, 10⟩, ⟨20000, 1000000, 365⟩] := by decide
  obtain ⟨-, -, -, h4, -⟩ := portfolio_yield_fields _ hne
  rw [hv] at h4
  refine ⟨?_, by norm_num [perLoanAnnualizedYield], by norm_num [perLoanAnnualizedYield], ?_⟩
  · rw [h4]
    simp only [List.map_cons, List.map_nil, List.sum_cons, List.sum_nil,
      meanPerLoanYield, perLoanAnnualizedYield, List.length_cons, List.length_nil]
    norm_num
  · simp only [meanPerLoanYield, perLoanAnnualizedYield, List.map_cons, List.map_nil,
      List.sum_cons, List.sum_nil, List.length_cons, List.length_nil]
    norm_num

/-- When every deposited amount is nonnegative, the adjusted collected total
(sum of deposits plus contracted interest of legacy released rows) equals the
sum of per-loan realized interest: the legacy rule of §4.2 applied in
aggregate. -/
theorem collected_adjusted_eq_sum_realized (df : List HealthRow)
    (hdep : ∀ r ∈ df, 0 ≤ r.interest_deposited_till_date) :
    total_collected_adjusted df = (df.map realizedOfHealthRow).sum := by
  induction df with
  | nil =>
      simp [total_collected_adjusted, total_deposited, legacy_released_rows,
        legacy_recovered_interest]
  | cons r t ih =>
      have hr := hdep r (List.mem_cons_self r t)
      have ih' := ih (fun x hx => hdep x (List.mem_cons_of_mem r hx))
      simp only [total_collected_adjusted, total_deposited, legacy_recovered_interest,
        legacy_released_rows, List.map_cons, List.sum_cons, List.filter_cons] at ih' ⊢
      cases hm : (r.released == "TRUE" && decide (r.interest_deposited_till_date ≤ 0)) with
      | true =>
          have hm' := hm
          simp only [Bool.and_eq_true, beq_iff_eq, decide_eq_true_eq] at hm'
          obtain ⟨hrel, hdle⟩ := hm'
          have hdep0 : r.interest_deposited_till_date = 0 := le_antisymm hdle hr
          simp only [hm, if_true, List.map_cons, List.sum_cons]
          rw [show realizedOfHealthRow r = r.interest_amount by
            simp [realizedOfHealthRow, calculate_realized_interest, legacyMask,
              releasedEqTRUE, depMissingOrNonpos, hrel, hdle]]
          rw [hdep0]
          linarith [ih']
      | false =>
          simp only [hm, Bool.false_eq_true, if_false]
          rw [show realizedOfHealthRow r = r.interest_deposited_till_date by
            simp [realizedOfHealthRow, calculate_realized_interest, legacyMask,
              releasedEqTRUE, depMissingOrNonpos, hm]]
          linarith [ih']

/-- Claim C5: with a positive total loan amount, the collection efficiency is
the adjusted collected total (deposits over all loans plus contracted
interest of released loans with no positive deposit — the same legacy rule as
realized interest) over the expected interest `Σ loan_amount × 0.12`, times
100, and the collection-health sub-score is `min(100, efficiency)`. -/
theorem collection_efficiency_spec (df : List HealthRow)
    (h : 0 < total_loan_amount df) :
    collection_efficiency df
        = (total_deposited df + legacy_recovered_interest df)
            / (total_loan_amount df * (12 / 100)) * 100 ∧
    collection_health df = min 100 (collection_efficiency df) ∧
    ((∀ r ∈ df, 0 ≤ r.interest_deposited_till_date) →
      total_collected_adjusted df = (df.map realizedOfHealthRow).sum) := by
  refine ⟨?_, rfl, collected_adjusted_eq_sum_realized df⟩
  rw [collection_efficiency, if_pos h, total_collected_adjusted]
  norm_num

/-- Witness for claim C5: a two-loan snapshot (one legacy released loan with
no deposit, one active loan with a deposit of 30). -/
theorem collection_efficiency_spec_witness :
    0 < total_loan_amount [⟨1000, 120, 0, "TRUE"⟩, ⟨2000, 50, 30, "FALSE"⟩] ∧
      collection_efficiency [⟨1000, 120, 0, "TRUE"⟩, ⟨2000, 50, 30, "FALSE"⟩] = 125 / 3 ∧
      collection_health [⟨1000, 120, 0, "TRUE"⟩, ⟨2000, 50, 30, "FALSE"⟩] = 125 / 3 ∧
      total_collected_adjusted [⟨1000, 120, 0, "TRUE"⟩, ⟨2000, 50, 30, "FALSE"⟩]
        = ([⟨1000, 120, 0, "TRUE"⟩, ⟨2000, 50, 30, "FALSE"⟩].map realizedOfHealthRow).sum := by
  have htl : total_loan_amount [(⟨1000, 120, 0, "TRUE"⟩ : HealthRow), ⟨2000, 50, 30, "FALSE"⟩]
      = 3000 := by
    norm_num [total_loan_amount]
  have hpos : 0 < total_loan_amount
      [(⟨1000, 120, 0, "TRUE"⟩ : HealthRow), ⟨2000, 50, 30, "FALSE"⟩] := by
    rw [htl]; norm_num
  obtain ⟨h1, h2, h3⟩ := collection_efficiency_spec _ hpos
  have hlr : legacy_released_rows [(⟨1000, 120, 0, "TRUE"⟩ : HealthRow), ⟨2000, 50, 30, "FALSE"⟩]
      = [⟨1000, 120, 0, "TRUE"⟩] := by decide
  have htd : total_deposited [(⟨1000, 120, 0, "TRUE"⟩ : HealthRow), ⟨2000, 50, 30, "FALSE"⟩]
      = 30 := by
    simp [total_deposited]
  have hlg : legacy_recovered_interest
      [(⟨1000, 120, 0, "TRUE"⟩ : HealthRow), ⟨2000, 50, 30, "FALSE"⟩] = 120 := by
    simp [legacy_recovered_interest, hlr]
  have heff : collection_efficiency
      [(⟨1000, 120, 0, "TRUE"⟩ : HealthRow), ⟨2000, 50, 30, "FALSE"⟩] = 125 / 3 := by
    rw [h1, htd, hlg, htl]; norm_num
  refine ⟨hpos, heff, ?_, h3 (by decide)⟩
  rw [h2, heff]
  norm_num

/-- Claim C6: for active loans, months active is `days / 30.44`, the equity
remaining is `100 − (ltv + 1.25 × months)` with the default accrual rate of
1.25 per month, the payment-overdue flag holds exactly when the equity
remaining is below 1.25, and the value may go negative: at ltv 95 and 11
months it is exactly −8.75. -/
theorem equity_remaining_spec :
    (∀ d : ℚ, months_since_disbursement d = d / (30.44 : ℚ)) ∧
    (∀ ltv m : ℚ, equity_remaining ltv m = 100 - (ltv + (1.25 : ℚ) * m)) ∧
    (∀ e : ℚ, payment_overdue e = true ↔ e < (1.25 : ℚ)) ∧
    equity_remaining 95 11 = -8.75 ∧
    equity_remaining 95 11 < 0 := by
  refine ⟨fun _ => rfl, fun _ _ => rfl, fun e => by simp [payment_overdue], ?_, ?_⟩ <;>
    norm_num [equity_remaining]

/-- Claim C10: the legacy fallback of `calculate_realized_interest` fires
exactly when the raw `released` cell is the uppercase string TRUE; a released
loan with deposited 0 and contracted interest 5000 whose `released` cell is
the native boolean or a string of another casing realizes 0, while the same
cell canonicalized by the `normalize_customer_data` rule realizes 5000; and
`prepare_yield_data`, which performs no such canonicalization, propagates the
deposited 0 for such a loan. -/
theorem legacy_fallback_requires_uppercase_TRUE :
    (∀ (rel : PyVal) (dep : Option ℚ) (amt : ℚ),
        depMissingOrNonpos dep = true →
          (legacyMask ⟨dep, amt, rel⟩ = true ↔ rel = PyVal.str "TRUE")) ∧
    calculate_realized_interest ⟨some 0, 5000, .bool true⟩ = some 0 ∧
    calculate_realized_interest ⟨some 0, 5000, .str "true"⟩ = some 0 ∧
    calculate_realized_interest ⟨some 0, 5000, .str "True"⟩ = some 0 ∧
    calculate_realized_interest
        ⟨some 0, 5000, normalize_customer_released (.bool true)⟩ = some 5000 ∧
    calculate_realized_interest
        ⟨some 0, 5000, normalize_customer_released (.str "true")⟩ = some 5000 ∧
    prepare_yield_data [⟨100000, 5000, some 0, .bool true, 0, some 100⟩]
      = some [⟨⟨100000, 5000, some 0, .bool true, 0, some 100⟩, 100, some 0⟩] := by
  refine ⟨?_, by decide, by decide, by decide, by decide, by decide, by decide⟩
  intro rel dep amt hdm
  rw [legacyMask]
  constructor
  · intro hmask
    cases rel with
    | str s =>
        have : (s == "TRUE") = true := by
          simpa [releasedEqTRUE, hdm] using hmask
        simpa using this
    | bool b => simp [releasedEqTRUE] at hmask
  · intro hrel
    subst hrel
    simp [releasedEqTRUE, hdm]

/-- Witness for claim C10: the mask characterization at a native-boolean
released cell with deposited 0. -/
theorem legacy_fallback_requires_uppercase_TRUE_witness :
    depMissingOrNonpos (some 0) = true ∧
      (legacyMask ⟨some 0, 7, PyVal.bool true⟩ = true ↔ PyVal.bool true = PyVal.str "TRUE") :=
  ⟨by decide,
    legacy_fallback_requires_uppercase_TRUE.1 (PyVal.bool true) (some 0) 7 (by decide)⟩

/-- A mapped constant-zero list sums to zero. -/
theorem sum_map_zero_q {α : Type} (l : List α) : (l.map (fun _ => (0 : ℚ))).sum = 0 := by
  induction l with
  | nil => simp
  | cons a t ih => simp [ih]

/-- Every element zero forces a zero sum. -/
theorem sum_eq_zero_q (l : List ℚ) (h : ∀ x ∈ l, x = 0) : l.sum = 0 := by
  induction l with
  | nil => simp
  | cons a t ih =>
      rw [List.sum_cons, h a (List.mem_cons_self a t),
        ih (fun x hx => h x (List.mem_cons_of_mem a hx)), add_zero]

/-- Summing a pointwise sum of two maps splits into two sums. -/
theorem sum_map_add_q {α : Type} (l : List α) (f g : α → ℚ) :
    (l.map (fun x => f x + g x)).sum = (l.map f).sum + (l.map g).sum := by
  induction l with
  | nil => simp
  | cons a t ih => simp [ih]; ring

/-- Summing the positional cells of a list over its index range recovers the
plain sum. -/
theorem sum_getD_range (cs : List ℚ) :
    ((List.range cs.length).map (fun j => cs.getD j 0)).sum = cs.sum := by
  induction cs with
  | nil => simp
  | cons c t ih =>
      rw [List.length_cons, List.range_succ_eq_map, List.map_cons, List.map_map]
      simp only [Function.comp_def, List.getD_cons_zero, List.getD_cons_succ, ih,
        List.sum_cons]

/-- The per-column sums list has one entry per column. -/
theorem colSums_length (rows : List (List ℚ)) (n : ℕ) : (colSums rows n).length = n := by
  simp [colSums]

/-- Positional access into the per-column sums. -/
theorem colSums_getD (rows : List (List ℚ)) (n j : ℕ) :
    (colSums rows n).getD j 0
      = if j < n then (rows.map (fun cs => cs.getD j 0)).sum else 0 := by
  by_cases hj : j < n
  · rw [if_pos hj, colSums,
      List.getD_eq_getElem _ _ (by simpa [colSums] using hj),
      List.getElem_map, List.getElem_range]
  · rw [if_neg hj, List.getD_eq_default]
    rw [colSums_length]
    omega

/-- The sum of the per-column sums, columns exchanged for rows. -/
theorem colSums_sum (rows : List (List ℚ)) (n : ℕ) :
    (colSums rows n).sum
      = (rows.map (fun cs => ((List.range n).map (fun j => cs.getD j 0)).sum)).sum := by
  induction rows with
  | nil =>
      rw [List.map_nil, List.sum_nil, colSums]
      exact sum_map_zero_q (List.range n)
  | cons r rows ih =>
      have hstep : colSums (r :: rows) n
          = (List.range n).map
              (fun j => r.getD j 0 + (rows.map (fun cs => cs.getD j 0)).sum) := by
        simp [colSums]
      rw [hstep,
        sum_map_add_q (List.range n) (fun j => r.getD j 0)
          (fun j => (rows.map (fun cs => cs.getD j 0)).sum),
        List.map_cons, List.sum_cons, ← ih]
      rfl

/-- When all rows have exactly `n` cells, the grand total of the column sums
is the total of the row sums. -/
theorem colSums_sum_of_uniform (rows : List (List ℚ)) (n : ℕ)
    (h : ∀ cs ∈ rows, cs.length = n) :
    (colSums rows n).sum = (rows.map (fun cs => cs.sum)).sum := by
  rw [colSums_sum]
  exact congrArg List.sum
    (List.map_congr_left (fun cs hcs => by rw [← h cs hcs]; exact sum_getD_range cs))

/-- The pivot body always has 12 month rows. -/
theorem monthRows_length (records : List PivotRecord) : (monthRows records).length = 12 := by
  simp [monthRows]

/-- The month-row labels are the fixed month abbreviations in order. -/
theorem monthRows_map_fst (records : List PivotRecord) :
    (monthRows records).map Prod.fst = monthAbbrList := by
  rw [monthRows, List.map_map]
  rfl

/-- Positional access into the pivot body. -/
theorem monthRows_getD (records : List PivotRecord) (i : ℕ) (hi : i < 12) :
    (monthRows records).getD i ("", [])
      = (monthAbbrList.getD i "",
          (sortedYears records).map (fun y => cellValue records (i + 1) y)) := by
  rw [monthRows, List.getD_eq_getElem _ _ (by simpa using hi),
    List.getElem_map, List.getElem_range]

/-- Every month row has one cell per year column. -/
theorem monthRows_cells_length (records : List PivotRecord) :
    ∀ p ∈ monthRows records, p.2.length = (sortedYears records).length := by
  intro p hp
  obtain ⟨i, _, rfl⟩ := List.mem_map.mp hp
  simp

/-- The column count read off the first row of the pivot body
(`pivot.shape[1]`) is the number of year columns. -/
theorem monthRows_head_len (records : List PivotRecord) :
    ((monthRows records).head?.map (fun p => p.2.length)).getD 0
      = (sortedYears records).length := by
  rw [monthRows, show List.range 12 = 0 :: [1, 2, 3, 4, 5, 6, 7, 8, 9, 10, 11] from rfl]
  simp

/-- Closed form of `create_monthly_pivot`: the 12 month rows plus the
`Total` row, each extended by a `Total` cell exactly when more than one year
column exists. -/
theorem create_monthly_pivot_eq (records : List PivotRecord) :
    create_monthly_pivot records
      = ((monthRows records)
            ++ [("Total",
                  colSums ((monthRows records).map (fun p => p.2))
                    (sortedYears records).length)]).map
          (fun p => (p.1, extendRow (sortedYears records).length p.2)) := by
  simp only [create_monthly_pivot, add_pivot_totals]
  rw [monthRows_head_len]
  by_cases h1 : 1 < (sortedYears records).length
  · rw [if_pos h1]
    exact (List.map_congr_left (fun p _ => by simp [extendRow, h1])).symm
  · rw [if_neg h1]
    have hmap : ∀ l : List (String × List ℚ),
        l.map (fun p => (p.1, extendRow (sortedYears records).length p.2)) = l := by
      intro l
      induction l with
      | nil => rfl
      | cons p t ih => simp [extendRow, h1, ih]
    rw [hmap]

/-- Length of an extended row. -/
theorem extendRow_length (n : ℕ) (cs : List ℚ) :
    (extendRow n cs).length = cs.length + (if 1 < n then 1 else 0) := by
  rw [extendRow]
  split <;> simp

/-- Positional access into an extended row of `n` cells. -/
theorem extendRow_getD (n : ℕ) (cs : List ℚ) (j : ℕ) (hlen : cs.length = n) :
    (extendRow n cs).getD j 0
      = if j < n then cs.getD j 0
        else if j = n ∧ 1 < n then cs.sum else 0 := by
  rw [extendRow]
  by_cases h1 : 1 < n
  · rw [if_pos h1]
    by_cases hj : j < n
    · rw [if_pos hj, List.getD_append _ _ _ _ (by omega)]
    · rw [if_neg hj]
      by_cases hj2 : j = n
      · subst hj2
        rw [if_pos ⟨rfl, h1⟩, List.getD_append_right _ _ _ _ (by omega), hlen,
          Nat.sub_self, List.getD_cons_zero]
      · rw [if_neg (fun hc => hj2 hc.1), List.getD_eq_default _ _ (by simp; omega)]
  · rw [if_neg h1]
    by_cases hj : j < n
    · rw [if_pos hj]
    · rw [if_neg hj, if_neg (fun hc => h1 hc.2), List.getD_eq_default _ _ (by omega)]

/-- Total length of the finished pivot: 12 month rows plus the Total row. -/
theorem create_monthly_pivot_length (records : List PivotRecord) :
    (create_monthly_pivot records).length = 13 := by
  rw [create_monthly_pivot_eq]
  simp [monthRows]

/-- Positional access through a map, for an in-range index and arbitrary
defaults. -/
theorem getD_map_of_lt {α β : Type} (f : α → β) (l : List α) (i : ℕ)
    (hi : i < l.length) (d : β) (e : α) :
    (l.map f).getD i d = f (l.getD i e) := by
  rw [List.getD_eq_getElem _ _ (by simpa using hi), List.getElem_map,
    List.getD_eq_getElem _ _ hi]

/-- Row access for the 12 month rows of the finished pivot. -/
theorem create_monthly_pivot_getD_lt (records : List PivotRecord) (i : ℕ) (hi : i < 12) :
    (create_monthly_pivot records).getD i ("", [])
      = (monthAbbrList.getD i "",
          extendRow (sortedYears records).length
            ((sortedYears records).map (fun y => cellValue records (i + 1) y))) := by
  rw [create_monthly_pivot_eq,
    getD_map_of_lt _ _ i (by simp [monthRows_length]; omega) _ ("", []),
    List.getD_append _ _ _ _ (by rw [monthRows_length]; omega),
    monthRows_getD records i hi]

/-- Row access for the Total row of the finished pivot. -/
theorem create_monthly_pivot_getD_total (records : List PivotRecord) :
    (create_monthly_pivot records).getD 12 ("", [])
      = ("Total",
          extendRow (sortedYears records).length
            (colSums ((monthRows records).map (fun p => p.2))
              (sortedYears records).length)) := by
  rw [create_monthly_pivot_eq,
    getD_map_of_lt _ _ 12 (by simp [monthRows_length]) _ ("", []),
    List.getD_append_right _ _ _ _ (by rw [monthRows_length]),
    monthRows_length, Nat.sub_self, List.getD_cons_zero]

/-- A month that never occurs in the records yields zero cells in every year
column. -/
theorem cellValue_absent (records : List PivotRecord) (m : ℕ) (y : ℤ)
    (habs : ∀ r ∈ records, r.month ≠ m) : cellValue records m y = 0 := by
  rw [cellValue, List.filter_eq_nil_iff.mpr, List.map_nil, List.sum_nil]
  intro r hr
  simp [habs r hr]

/-- Claim C7: for a nonempty record list the monthly pivot has exactly the 12
calendar months in fixed Jan–Dec order plus a Total row; every row carries one
cell per year column plus a Total cell exactly when more than one year column
exists; months absent from the data are all-zero rows; and every Total-row
cell is the per-column sum of the 12 month rows. -/
theorem monthly_pivot_shape (records : List PivotRecord) (h : records ≠ []) :
    (create_monthly_pivot records).map Prod.fst = monthAbbrList ++ ["Total"] ∧
    (∀ p ∈ create_monthly_pivot records,
        p.2.length = (sortedYears records).length
          + (if 1 < (sortedYears records).length then 1 else 0)) ∧
    (∀ i, i < 12 → (∀ r ∈ records, r.month ≠ i + 1) →
        pivotRowCells (create_monthly_pivot records) i
          = List.replicate (pivotRowCells (create_monthly_pivot records) i).length 0) ∧
    (∀ j, pivotCell (create_monthly_pivot records) 12 j
        = ((List.range 12).map
            (fun i => pivotCell (create_monthly_pivot records) i j)).sum) := by
  refine ⟨?_, ?_, ?_, ?_⟩
  · rw [create_monthly_pivot_eq, List.map_map,
      show (Prod.fst ∘ fun p : String × List ℚ =>
        (p.1, extendRow (sortedYears records).length p.2)) = Prod.fst from rfl,
      List.map_append, monthRows_map_fst]
    rfl
  · intro p hp
    rw [create_monthly_pivot_eq] at hp
    obtain ⟨q, hq, rfl⟩ := List.mem_map.mp hp
    dsimp only
    rw [extendRow_length]
    rcases List.mem_append.mp hq with hq1 | hq1
    · rw [monthRows_cells_length records q hq1]
    · rw [List.mem_singleton.mp hq1]
      dsimp only
      rw [colSums_length]
  · intro i hi habs
    rw [pivotRowCells, create_monthly_pivot_getD_lt records i hi]
    dsimp only
    refine List.eq_replicate_length.mpr ?_
    intro b hb
    have hcell : ∀ x ∈ (sortedYears records).map
        (fun y => cellValue records (i + 1) y), x = 0 := by
      intro x hx
      obtain ⟨y, _, rfl⟩ := List.mem_map.mp hx
      exact cellValue_absent records (i + 1) y habs
    rw [extendRow] at hb
    by_cases h1 : 1 < (sortedYears records).length
    · rw [if_pos h1] at hb
      rcases List.mem_append.mp hb with hb1 | hb1
      · exact hcell b hb1
      · rw [List.mem_singleton.mp hb1]
        exact sum_eq_zero_q _ hcell
    · rw [if_neg h1] at hb
      exact hcell b hb
  · intro j
    have hR : (List.range 12).map
        (fun i => pivotCell (create_monthly_pivot records) i j)
        = (List.range 12).map (fun i =>
            if j < (sortedYears records).length then
              ((sortedYears records).map (fun y => cellValue records (i + 1) y)).getD j 0
            else if j = (sortedYears records).length ∧ 1 < (sortedYears records).length then
              ((sortedYears records).map (fun y => cellValue records (i + 1) y)).sum
            else 0) := by
      refine List.map_congr_left ?_
      intro i hi
      rw [pivotCell, pivotRowCells, create_monthly_pivot_getD_lt records i (List.mem_range.mp hi)]
      dsimp only
      exact extendRow_getD _ _ _ (by simp)
    rw [pivotCell, pivotRowCells, create_monthly_pivot_getD_total, hR]
    dsimp only
    rw [extendRow_getD _ _ _ (colSums_length _ _)]
    by_cases hj : j < (sortedYears records).length
    · simp only [if_pos hj]
      rw [colSums_getD, if_pos hj, monthRows, List.map_map, List.map_map]
      rfl
    · simp only [if_neg hj]
      by_cases hjn : j = (sortedYears records).length ∧ 1 < (sortedYears records).length
      · simp only [if_pos hjn]
        rw [colSums_sum_of_uniform _ _ (fun cs hcs => by
          obtain ⟨p, hp, rfl⟩ := List.mem_map.mp hcs
          exact monthRows_cells_length records p hp)]
        rw [monthRows, List.map_map, List.map_map]
        rfl
      · simp only [if_neg hjn]
        exact (sum_map_zero_q (List.range 12)).symm

/-- Witness for claim C7: a single March-2023 record yields the 12 fixed
month rows plus Total, all-but-one month zero, and the Total equal to that
one value. -/
theorem monthly_pivot_shape_witness :
    ([(⟨3, 2023, 42⟩ : PivotRecord)] ≠ ([] : List PivotRecord)) ∧
    ((create_monthly_pivot [⟨3, 2023, 42⟩]).map Prod.fst = monthAbbrList ++ ["Total"] ∧
      (∀ p ∈ create_monthly_pivot [⟨3, 2023, 42⟩],
          p.2.length = (sortedYears [⟨3, 2023, 42⟩]).length
            + (if 1 < (sortedYears [⟨3, 2023, 42⟩]).length then 1 else 0)) ∧
      (∀ i, i < 12 → (∀ r ∈ [(⟨3, 2023, 42⟩ : PivotRecord)], r.month ≠ i + 1) →
          pivotRowCells (create_monthly_pivot [⟨3, 2023, 42⟩]) i
            = List.replicate
                (pivotRowCells (create_monthly_pivot [⟨3, 2023, 42⟩]) i).length 0) ∧
      (∀ j, pivotCell (create_monthly_pivot [⟨3, 2023, 42⟩]) 12 j
          = ((List.range 12).map
              (fun i => pivotCell (create_monthly_pivot [⟨3, 2023, 42⟩]) i j)).sum)) ∧
    create_monthly_pivot [⟨3, 2023, 42⟩]
      = [("Jan", [0]), ("Feb", [0]), ("Mar", [42]), ("Apr", [0]), ("May", [0]),
         ("Jun", [0]), ("Jul", [0]), ("Aug", [0]), ("Sep", [0]), ("Oct", [0]),
         ("Nov", [0]), ("Dec", [0]), ("Total", [42])] := by
  have hne : [(⟨3, 2023, 42⟩ : PivotRecord)] ≠ ([] : List PivotRecord) := by simp
  refine ⟨hne, monthly_pivot_shape _ hne, ?_⟩
  have hcv : ∀ m : ℕ, cellValue [(⟨3, 2023, 42⟩ : PivotRecord)] m 2023
      = if 3 = m then 42 else 0 := by
    intro m
    by_cases hm : 3 = m
    · subst hm
      rw [if_pos rfl, cellValue,
        show ([(⟨3, 2023, 42⟩ : PivotRecord)].filter
          (fun r => r.month == 3 && r.year == 2023)) = [⟨3, 2023, 42⟩] by decide]
      simp
    · rw [if_neg hm, cellValue, List.filter_eq_nil_iff.mpr]
      · simp
      · intro r hr
        rw [List.mem_singleton.mp hr]
        simp
        intro h3
        exact absurd h3 hm
  norm_num [create_monthly_pivot, add_pivot_totals, monthRows, colSums,
    sortedYears, insertYear, monthAbbrList, extendRow, hcv, List.range_succ]

/-- The infinity replacement never outputs an infinity. -/
theorem replaceInfNan_ne_inf (v : FVal) :
    replaceInfNan v ≠ FVal.pinf ∧ replaceInfNan v ≠ FVal.ninf := by
  cases v <;> simp [replaceInfNan]

/-- Positional description of the `pct_change` tail: output `j` combines the
cells at positions `j` and `j + 1` of the original row. -/
theorem pctChangeGo_getElem (prev : FVal) (l : List FVal) (j : ℕ) :
    (pctChangeGo prev l)[j]?
      = ((prev :: l)[j]?).bind (fun p => (l[j]?).map (fun c => pctChangeCell p c)) := by
  induction l generalizing prev j with
  | nil => cases j <;> simp [pctChangeGo]
  | cons c rest ih =>
      cases j with
      | zero => simp [pctChangeGo]
      | succ k => simpa [pctChangeGo] using ih c k

/-- A zero-or-missing previous cell and a nonzero current cell produce `NaN`
after the multiply-and-replace pipeline of `calculate_yoy_change`. -/
theorem yoyEntry_null (p : FVal) (q : ℚ)
    (hp : p = FVal.num 0 ∨ p = FVal.nan) (hq : q ≠ 0) :
    replaceInfNan (fmul (pctChangeCell p (FVal.num q)) (FVal.num 100)) = FVal.nan := by
  rcases hp with rfl | rfl
  · by_cases hqp : 0 < q
    · norm_num [pctChangeCell, fdiv, fsub, fmul, replaceInfNan, hq, hqp]
    · norm_num [pctChangeCell, fdiv, fsub, fmul, replaceInfNan, hq, hqp]
  · norm_num [pctChangeCell, fdiv, fsub, fmul, replaceInfNan]

/-- Claim C8: the year-over-year table never contains an infinity, and a
zero-or-missing prior-year cell followed by a nonzero current-year cell
reports `NaN` (null), never an infinity. -/
theorem yoy_change_nulls (pivot : List (List FVal)) :
    (∀ row ∈ calculate_yoy_change pivot, ∀ c ∈ row,
        c ≠ FVal.pinf ∧ c ≠ FVal.ninf) ∧
    (∀ (i j : ℕ) (q : ℚ),
        (yoyCellAt pivot i j = some (FVal.num 0) ∨ yoyCellAt pivot i j = some FVal.nan) →
        yoyCellAt pivot i (j + 1) = some (FVal.num q) → q ≠ 0 →
        yoyCellAt (calculate_yoy_change pivot) i (j + 1) = some FVal.nan) := by
  constructor
  · intro row hrow c hc
    rw [calculate_yoy_change] at hrow
    obtain ⟨r1, _, rfl⟩ := List.mem_map.mp hrow
    obtain ⟨x, _, rfl⟩ := List.mem_map.mp hc
    exact replaceInfNan_ne_inf x
  · intro i j q hprev hcur hq
    obtain ⟨row, hrowi⟩ : ∃ row, pivot[i]? = some row := by
      rcases hprev with hp | hp <;>
        · rw [yoyCellAt] at hp
          cases hri : pivot[i]? with
          | none => rw [hri] at hp; simp at hp
          | some row => exact ⟨row, rfl⟩
    have hprow : row[j]? = some (FVal.num 0) ∨ row[j]? = some FVal.nan := by
      rcases hprev with hp | hp
      · left; rw [yoyCellAt, hrowi] at hp; simpa using hp
      · right; rw [yoyCellAt, hrowi] at hp; simpa using hp
    have hcrow : row[j + 1]? = some (FVal.num q) := by
      rw [yoyCellAt, hrowi] at hcur
      simpa using hcur
    rw [yoyCellAt, calculate_yoy_change, List.getElem?_map, List.getElem?_map, hrowi]
    simp only [Option.map_some', Option.some_bind]
    rw [List.getElem?_map, List.getElem?_map]
    cases row with
    | nil =>
        rcases hprow with hp | hp <;> simp at hp
    | cons c rest =>
        have hrest : rest[j]? = some (FVal.num q) := by simpa using hcrow
        rw [pctChangeRow, List.getElem?_cons_succ, pctChangeGo_getElem, hrest]
        rcases hprow with hp | hp
        · rw [hp]
          simp only [Option.some_bind, Option.map_some']
          exact congrArg some (yoyEntry_null _ q (Or.inl rfl) hq)
        · rw [hp]
          simp only [Option.some_bind, Option.map_some']
          exact congrArg some (yoyEntry_null _ q (Or.inr rfl) hq)

/-- Witness for claim C8: the one-row pivot `[[0, 5]]` (a prior-year zero and
a nonzero current year) reports null, not infinity. -/
theorem yoy_change_nulls_witness :
    (yoyCellAt [[FVal.num 0, FVal.num 5]] 0 0 = some (FVal.num 0) ∨
        yoyCellAt [[FVal.num 0, FVal.num 5]] 0 0 = some FVal.nan) ∧
      yoyCellAt [[FVal.num 0, FVal.num 5]] 0 1 = some (FVal.num 5) ∧ (5 : ℚ) ≠ 0 ∧
      yoyCellAt (calculate_yoy_change [[FVal.num 0, FVal.num 5]]) 0 1 = some FVal.nan := by
  refine ⟨Or.inl (by decide), by decide, by decide, ?_⟩
  exact (yoy_change_nulls [[FVal.num 0, FVal.num 5]]).2 0 0 5
    (Or.inl (by decide)) (by decide) (by decide)

end LoanDash
